import Mathlib

set_option maxHeartbeats 1000000

/-!
Verification development for the slide-generator service in `app.py`.

The development shallowly embeds the Python code of the repository:

* `PyVal` models values produced by `json.loads` (plus Python tuples, which
  the error paths of `generate_presentation_content` return to its caller);
* `normalize_slide_data` is a direct translation of the function of the same
  name (app.py lines 147-170);
* a model of Python's `json.loads` (restricted to the JSON fragment without
  fractional or exponent number literals: floating point is out of scope) and
  of `str.strip(chars)` supports the response-text processing of
  `generate_presentation_content` (app.py lines 112-145);
* a model of the python-pptx presentation objects (layouts, placeholders,
  text frames, paragraphs, runs) supports the slide population code of
  `generate_pptx` (app.py lines 202-293).
-/

namespace PptGen

/-- Model of a Python value as handled by the repository: the JSON-decodable
values (`None`, booleans, integers, strings, lists, dicts with string keys)
plus tuples, which `generate_presentation_content` returns on its error paths
(`return {'error': ...}, code` produces a 2-tuple).  JSON number literals with
a fraction or exponent (Python floats) are outside the model. -/
inductive PyVal where
  | none : PyVal
  | bool : Bool → PyVal
  | int : Int → PyVal
  | str : String → PyVal
  | list : List PyVal → PyVal
  | dict : List (String × PyVal) → PyVal
  | tuple : List PyVal → PyVal

/-- Python `dict.get` / `d[k]` on the association-list model of a dict
(keys are unique; first match). -/
def dictGet : List (String × PyVal) → String → Option PyVal
  | [], _ => Option.none
  | (k, v) :: rest, key => if k = key then some v else dictGet rest key

/-- Python `repr` of a `str`: quote with `'` unless the string contains `'`
but no `"`; escape the backslash, the quote character and the common control
characters.  (Escaping of other non-printable characters is elided; the
repository only ever calls `str()` on values whose strings are plain.) -/
def pyEscChars (q : Char) : List Char → List Char
  | [] => []
  | c :: rest =>
    (if c = '\\' then ['\\', '\\']
     else if c = q then ['\\', q]
     else if c = '\n' then ['\\', 'n']
     else if c = '\r' then ['\\', 'r']
     else if c = '\t' then ['\\', 't']
     else [c]) ++ pyEscChars q rest

/-- Python `repr` of a string (see `pyEscChars`). -/
def pyReprStr (s : String) : String :=
  let q : Char :=
    if s.toList.contains '\x27' && !(s.toList.contains '"') then '"' else '\x27'
  String.mk ([q] ++ pyEscChars q s.toList ++ [q])

mutual

/-- Python `repr` on the value model (used by `str()` for containers). -/
def pyRepr : PyVal → String
  | PyVal.none => ("None")
  | PyVal.bool b => if b then ("True") else ("False")
  | PyVal.int n => toString n
  | PyVal.str s => pyReprStr s
  | PyVal.list xs => ("[") ++ pyReprItems xs ++ ("]")
  | PyVal.dict kvs => ("\x7b") ++ pyReprPairs kvs ++ ("\x7d")
  | PyVal.tuple [x] => ("(") ++ pyRepr x ++ (",)")
  | PyVal.tuple xs => ("(") ++ pyReprItems xs ++ (")")

/-- Comma-separated `repr`s of the elements of a list or tuple. -/
def pyReprItems : List PyVal → String
  | [] => ""
  | [x] => pyRepr x
  | x :: y :: rest => pyRepr x ++ (", ") ++ pyReprItems (y :: rest)

/-- Comma-separated `repr`s of the key/value pairs of a dict. -/
def pyReprPairs : List (String × PyVal) → String
  | [] => ""
  | [(k, v)] => pyReprStr k ++ (": ") ++ pyRepr v
  | (k, v) :: p :: rest => pyReprStr k ++ (": ") ++ pyRepr v ++ (", ") ++ pyReprPairs (p :: rest)

end

/-- Python `str()` on the value model: a string is returned unchanged, every
other value renders as its `repr`. -/
def pyStr : PyVal → String
  | PyVal.str s => s
  | v => pyRepr v

/-- `app.py` lines 162-163: extract `title` from a mapping element, defaulting
to `"Slide {i+1}"` when the key is absent.  The value is kept as-is (it is not
coerced to a string). -/
def itemTitle (i : Nat) (kvs : List (String × PyVal)) : PyVal :=
  match dictGet kvs ("title") with
  | some t => t
  | Option.none => PyVal.str (("Slide ") ++ toString (i + 1))

/-- `app.py` lines 164-165: a non-list `points` value is coerced to a
one-element list containing its stringification. -/
def coercePoints : PyVal → List PyVal
  | PyVal.list ps => ps
  | other => [PyVal.str (pyStr other)]

/-- `app.py` lines 163-165: extract `points` from a mapping element
(default `[]`; non-list values coerced via `coercePoints`). -/
def itemPoints (kvs : List (String × PyVal)) : List PyVal :=
  coercePoints (match dictGet kvs ("points") with
    | some p => p
    | Option.none => PyVal.list [])

/-- `app.py` lines 161-168: normalization of a single enumerated entry. -/
def normalizeItem (i : Nat) : PyVal → PyVal
  | PyVal.dict kvs =>
    PyVal.dict [(("title"), itemTitle i kvs), (("points"), PyVal.list (itemPoints kvs))]
  | other => PyVal.dict [(("title"), PyVal.str (pyStr other)), (("points"), PyVal.list [])]

/-- `app.py` line 160: the `for i, item in enumerate(raw)` loop, carrying the
running index. -/
def normList (i : Nat) : List PyVal → List PyVal
  | [] => []
  | x :: xs => normalizeItem i x :: normList (i + 1) xs

/-- `app.py` lines 147-170 (`normalize_slide_data`): wrap a dict root in a
list; force any other non-list root to a single default slide; then normalize
each entry. -/
def normalize_slide_data (raw : PyVal) : PyVal :=
  let raw1 := match raw with
    | PyVal.dict kvs => PyVal.list [PyVal.dict kvs]
    | other => other
  let raw2 : List PyVal := match raw1 with
    | PyVal.list xs => xs
    | other => [PyVal.dict [(("title"), PyVal.str (pyStr other)), (("points"), PyVal.list [])]]
  PyVal.list (normList 0 raw2)

/-- Length of the deck returned by the normalizer, when the result is a list
(the normalizer always returns a list). -/
def deckLen : PyVal → Option Nat
  | PyVal.list xs => some xs.length
  | _ => Option.none

/-- Element access on the normalizer's result. -/
def deckGet (v : PyVal) (i : Nat) : Option PyVal :=
  match v with
  | PyVal.list xs => xs.get? i
  | _ => Option.none

theorem normList_length (i : Nat) (xs : List PyVal) :
    (normList i xs).length = xs.length := by
  induction xs generalizing i with
  | nil => rfl
  | cons x xs ih => simp [normList, ih]

theorem normList_get? (i j : Nat) (xs : List PyVal) :
    (normList i xs).get? j = (xs.get? j).map (fun x => normalizeItem (i + j) x) := by
  induction xs generalizing i j with
  | nil => simp [normList]
  | cons x xs ih =>
    cases j with
    | zero => simp [normList]
    | succ j =>
      simp only [normList, List.get?_cons_succ, ih (i + 1) j]
      have h : i + 1 + j = i + (j + 1) := by omega
      rw [h]

theorem normalizeItem_shape (i : Nat) (x : PyVal) :
    ∃ t ps, normalizeItem i x =
      PyVal.dict [(("title"), t), (("points"), PyVal.list ps)] := by
  cases x with
  | dict kvs => exact ⟨itemTitle i kvs, itemPoints kvs, rfl⟩
  | none => exact ⟨_, [], rfl⟩
  | bool b => exact ⟨_, [], rfl⟩
  | int n => exact ⟨_, [], rfl⟩
  | str s => exact ⟨_, [], rfl⟩
  | list xs => exact ⟨_, [], rfl⟩
  | tuple xs => exact ⟨_, [], rfl⟩

theorem normList_shape (i : Nat) (xs : List PyVal) :
    ∀ e ∈ normList i xs, ∃ t ps,
      e = PyVal.dict [(("title"), t), (("points"), PyVal.list ps)] := by
  induction xs generalizing i with
  | nil => intro e he; cases he
  | cons x xs ih =>
    intro e he
    cases he with
    | head => exact normalizeItem_shape i x
    | tail _ h => exact ih (i + 1) e h

theorem normalizeItem_idem (j : Nat) (t : PyVal) (ps : List PyVal) :
    normalizeItem j (PyVal.dict [(("title"), t), (("points"), PyVal.list ps)]) =
      PyVal.dict [(("title"), t), (("points"), PyVal.list ps)] := rfl

theorem normList_idem (j i : Nat) (xs : List PyVal) :
    normList j (normList i xs) = normList i xs := by
  induction xs generalizing i j with
  | nil => rfl
  | cons x xs ih =>
    obtain ⟨t, ps, h⟩ := normalizeItem_shape i x
    simp only [normList, h, normalizeItem_idem, ih]

/-- Stated from the claim's own wording (element-wise description of the
normalizer), to be compared with `normalizeItem`, which is translated from the
code: if the element is a mapping, take its `title` (default `"Slide {i+1}"`),
and its `points` if a sequence, a one-element sequence of its stringified
value if present but not a sequence, empty if absent; a non-mapping element
becomes `{title: stringified element, points: []}`. -/
def slideElementSpec (i : Nat) (item : PyVal) : PyVal :=
  match item with
  | PyVal.dict kvs =>
    let t := match dictGet kvs ("title") with
      | some tv => tv
      | Option.none => PyVal.str (("Slide ") ++ toString (i + 1))
    let p : List PyVal := match dictGet kvs ("points") with
      | some (PyVal.list ps) => ps
      | some other => [PyVal.str (pyStr other)]
      | Option.none => []
    PyVal.dict [(("title"), t), (("points"), PyVal.list p)]
  | other => PyVal.dict [(("title"), PyVal.str (pyStr other)), (("points"), PyVal.list [])]

theorem normalizeItem_eq_spec (i : Nat) (x : PyVal) :
    normalizeItem i x = slideElementSpec i x := by
  cases x with
  | dict kvs =>
    simp only [normalizeItem, slideElementSpec, itemTitle, itemPoints]
    cases hp : dictGet kvs ("points") with
    | none => rfl
    | some p => cases p <;> rfl
  | none => rfl
  | bool b => rfl
  | int n => rfl
  | str s => rfl
  | list xs => rfl
  | tuple xs => rfl

/-- C1 (counterexample).  The claim asserts that `normalize_slide_data`
always returns a non-empty sequence of `{title: string, points: strings}`
mappings.  In fact the empty list input yields an empty deck, and a mapping
whose `title` value is not a string keeps that non-string title. -/
theorem claim_C1_cx :
    normalize_slide_data (PyVal.list []) = PyVal.list [] ∧
    deckGet (normalize_slide_data (PyVal.dict [(("title"), PyVal.int 42)])) 0 =
      some (PyVal.dict [(("title"), PyVal.int 42), (("points"), PyVal.list [])]) :=
  ⟨rfl, rfl⟩

/-- C1 (amended).  For every input value, `normalize_slide_data` terminates
and returns a sequence in which every element is a mapping with exactly the
keys `title` and `points`, with `points` always a sequence; the result is
non-empty except when the input is the empty list.  Titles and point elements
keep their original values and so need not be strings. -/
theorem claim_C1_amended (v : PyVal) :
    ∃ l, normalize_slide_data v = PyVal.list l ∧
      (l = [] ↔ v = PyVal.list []) ∧
      (∀ e ∈ l, ∃ t ps, e = PyVal.dict [(("title"), t), (("points"), PyVal.list ps)]) := by
  cases v with
  | list xs =>
    refine ⟨normList 0 xs, rfl, ?_, normList_shape 0 xs⟩
    constructor
    · intro h
      cases xs with
      | nil => rfl
      | cons a as => simp [normList] at h
    · intro h
      injection h with h'
      subst h'
      rfl
  | dict kvs =>
    refine ⟨_, rfl, by simp [normList, normalizeItem], ?_⟩
    intro e he
    cases he with
    | head => exact normalizeItem_shape 0 _
    | tail _ h => cases h
  | none =>
    refine ⟨_, rfl, by simp [normList, normalizeItem], ?_⟩
    intro e he
    cases he with
    | head => exact normalizeItem_shape 0 _
    | tail _ h => cases h
  | bool b =>
    refine ⟨_, rfl, by simp [normList, normalizeItem], ?_⟩
    intro e he
    cases he with
    | head => exact normalizeItem_shape 0 _
    | tail _ h => cases h
  | int n =>
    refine ⟨_, rfl, by simp [normList, normalizeItem], ?_⟩
    intro e he
    cases he with
    | head => exact normalizeItem_shape 0 _
    | tail _ h => cases h
  | str s =>
    refine ⟨_, rfl, by simp [normList, normalizeItem], ?_⟩
    intro e he
    cases he with
    | head => exact normalizeItem_shape 0 _
    | tail _ h => cases h
  | tuple xs =>
    refine ⟨_, rfl, by simp [normList, normalizeItem], ?_⟩
    intro e he
    cases he with
    | head => exact normalizeItem_shape 0 _
    | tail _ h => cases h

/-- C1 witness: the amended statement at the concrete scalar input `7`. -/
theorem claim_C1_witness :
    ∃ l, normalize_slide_data (PyVal.int 7) = PyVal.list l ∧
      (l = [] ↔ PyVal.int 7 = PyVal.list []) ∧
      (∀ e ∈ l, ∃ t ps, e = PyVal.dict [(("title"), t), (("points"), PyVal.list ps)]) :=
  claim_C1_amended (PyVal.int 7)

/-- C5.  Element-wise behaviour of the normalizer on list inputs matches the
claim's description (`slideElementSpec`), and the two concrete examples hold:
`{"title": "A", "points": "x"}` yields `[{title: "A", points: ["x"]}]`, and
the scalar `42` yields `[{title: "42", points: []}]`. -/
theorem claim_C5 :
    (∀ (xs : List PyVal) (i : Nat),
      deckGet (normalize_slide_data (PyVal.list xs)) i =
        (xs.get? i).map (fun x => slideElementSpec i x)) ∧
    normalize_slide_data (PyVal.dict [(("title"), PyVal.str ("A")), (("points"), PyVal.str ("x"))]) =
      PyVal.list [PyVal.dict [(("title"), PyVal.str ("A")),
        (("points"), PyVal.list [PyVal.str ("x")])]] ∧
    normalize_slide_data (PyVal.int 42) =
      PyVal.list [PyVal.dict [(("title"), PyVal.str ("42")), (("points"), PyVal.list [])]] := by
  refine ⟨?_, rfl, rfl⟩
  intro xs i
  show (normList 0 xs).get? i = (xs.get? i).map (fun x => slideElementSpec i x)
  rw [normList_get?]
  cases xs.get? i with
  | none => rfl
  | some x => simp [normalizeItem_eq_spec]

/-- C9.  The deck returned by the normalizer has exactly as many elements as
a list input (in particular, the empty list yields an empty deck), and
exactly one element for a mapping or any other non-list input. -/
theorem claim_C9 (v : PyVal) :
    deckLen (normalize_slide_data v) =
      some (match v with | PyVal.list xs => xs.length | _ => 1) := by
  cases v with
  | list xs =>
    show some (normList 0 xs).length = some xs.length
    rw [normList_length]
  | dict kvs => rfl
  | none => rfl
  | bool b => rfl
  | int n => rfl
  | str s => rfl
  | tuple xs => rfl

/-- C10.  `normalize_slide_data` is idempotent. -/
theorem claim_C10 (v : PyVal) :
    normalize_slide_data (normalize_slide_data v) = normalize_slide_data v := by
  cases v <;> exact congrArg PyVal.list (normList_idem 0 0 _)

/-! ### A model of Python's `json.loads`

`generate_presentation_content` parses the model's answer with `json.loads`
(an external standard-library collaborator).  The model below implements the
JSON grammar as Python's strict decoder accepts it, restricted to numbers
without fraction or exponent parts (floating point is out of scope for every
claim).  Duplicate object keys keep the first occurrence's position and the
last occurrence's value, as Python dict construction does. -/

/-- JSON whitespace as accepted by Python's decoder. -/
def jsonWs (c : Char) : Bool := c == ' ' || c == '\t' || c == '\n' || c == '\r'

/-- Skip JSON whitespace. -/
def skipWsJ (cs : List Char) : List Char := cs.dropWhile jsonWs

/-- Hexadecimal digit value, for `\uXXXX` escapes. -/
def hexVal (c : Char) : Option Nat :=
  if c.isDigit then some (c.toNat - 48)
  else if 'a' ≤ c ∧ c ≤ 'f' then some (c.toNat - 87)
  else if 'A' ≤ c ∧ c ≤ 'F' then some (c.toNat - 55)
  else Option.none

/-- Escape map for the single-character JSON string escapes. -/
def escMap (c : Char) : Option Char :=
  if c = '"' then some '"'
  else if c = '\\' then some '\\'
  else if c = '/' then some '/'
  else if c = 'b' then some '\x08'
  else if c = 'f' then some '\x0c'
  else if c = 'n' then some '\n'
  else if c = 'r' then some '\r'
  else if c = 't' then some '\t'
  else Option.none

/-- Parse the body of a JSON string after the opening quote, returning the
decoded characters and the remainder after the closing quote.  (`\u` escapes
decode to the code point; surrogate-pair recombination is elided.) -/
def parseStrChars : List Char → Option (List Char × List Char)
  | [] => Option.none
  | c :: rest =>
    if c = '"' then some ([], rest)
    else if c = '\\' then
      match rest with
      | [] => Option.none
      | e :: rest2 =>
        if e = 'u' then
          match rest2 with
          | h1 :: h2 :: h3 :: h4 :: rest3 =>
            match hexVal h1, hexVal h2, hexVal h3, hexVal h4 with
            | some a, some b, some c3, some d =>
              (parseStrChars rest3).map
                (fun p => (Char.ofNat (((a * 16 + b) * 16 + c3) * 16 + d) :: p.1, p.2))
            | _, _, _, _ => Option.none
          | _ => Option.none
        else
          match escMap e with
          | some ec => (parseStrChars rest2).map (fun p => (ec :: p.1, p.2))
          | Option.none => Option.none
    else (parseStrChars rest).map (fun p => (c :: p.1, p.2))

/-- Accumulate a run of decimal digits. -/
def digitsToNat (acc : Nat) : List Char → Nat × List Char
  | [] => (acc, [])
  | c :: rest =>
    if c.isDigit then digitsToNat (acc * 10 + (c.toNat - 48)) rest else (acc, c :: rest)

/-- Parse an integer literal (after an optional leading minus, which the
caller has consumed into `neg`).  Python's decoder rejects a leading zero
followed by more digits; a following `.`/`e`/`E` begins a float literal,
which the model does not cover and rejects. -/
def parseIntLit (neg : Bool) : List Char → Option (PyVal × List Char)
  | [] => Option.none
  | c :: rest =>
    if c.isDigit then
      let p := digitsToNat (c.toNat - 48) rest
      if c = '0' && (match rest.head? with | some d => d.isDigit | Option.none => false) then
        Option.none
      else
        match p.2.head? with
        | some d =>
          if d = '.' || d = 'e' || d = 'E' then Option.none
          else some (PyVal.int (if neg then -(p.1 : Int) else (p.1 : Int)), p.2)
        | Option.none => some (PyVal.int (if neg then -(p.1 : Int) else (p.1 : Int)), p.2)
    else Option.none

/-- `{` (written via its code point to keep brace characters out of the
source text). -/
def objOpenChar : Char := Char.ofNat 123

/-- `}` (via its code point). -/
def objCloseChar : Char := Char.ofNat 125

/-- Python dict construction from parsed key/value pairs: a repeated key
keeps its first position and takes the later value. -/
def dictUpsert : List (String × PyVal) → String → PyVal → List (String × PyVal)
  | [], k, v => [(k, v)]
  | (k0, v0) :: rest, k, v =>
    if k0 = k then (k0, v) :: rest else (k0, v0) :: dictUpsert rest k v

/-- Fold parsed object members into a Python dict (see `dictUpsert`). -/
def pyDictOf (pairs : List (String × PyVal)) : List (String × PyVal) :=
  pairs.foldl (fun d p => dictUpsert d p.1 p.2) []

mutual

/-- Parse one JSON value; `fuel` bounds the recursion depth and is sized
generously by `json_loads`. -/
def parseJ : Nat → List Char → Option (PyVal × List Char)
  | 0, _ => Option.none
  | Nat.succ fuel, cs =>
    match skipWsJ cs with
    | [] => Option.none
    | c :: rest =>
      if c = 'n' then
        match rest with
        | 'u' :: 'l' :: 'l' :: r => some (PyVal.none, r)
        | _ => Option.none
      else if c = 't' then
        match rest with
        | 'r' :: 'u' :: 'e' :: r => some (PyVal.bool true, r)
        | _ => Option.none
      else if c = 'f' then
        match rest with
        | 'a' :: 'l' :: 's' :: 'e' :: r => some (PyVal.bool false, r)
        | _ => Option.none
      else if c = '"' then
        (parseStrChars rest).map (fun p => (PyVal.str (String.mk p.1), p.2))
      else if c = '-' then parseIntLit true rest
      else if c.isDigit then parseIntLit false (c :: rest)
      else if c = '[' then
        match skipWsJ rest with
        | ']' :: r => some (PyVal.list [], r)
        | _ => (parseArrItems fuel rest).map (fun p => (PyVal.list p.1, p.2))
      else if c = objOpenChar then
        match skipWsJ rest with
        | c2 :: r =>
          if c2 = objCloseChar then some (PyVal.dict [], r)
          else (parseObjItems fuel rest).map (fun p => (PyVal.dict (pyDictOf p.1), p.2))
        | [] => Option.none
      else Option.none

/-- Parse the comma-separated items of a non-empty JSON array (after `[`). -/
def parseArrItems : Nat → List Char → Option (List PyVal × List Char)
  | 0, _ => Option.none
  | Nat.succ fuel, cs =>
    match parseJ fuel cs with
    | Option.none => Option.none
    | some (v, rem) =>
      match skipWsJ rem with
      | ',' :: r => (parseArrItems fuel r).map (fun p => (v :: p.1, p.2))
      | ']' :: r => some ([v], r)
      | _ => Option.none

/-- Parse the members of a non-empty JSON object (after the opening brace). -/
def parseObjItems : Nat → List Char → Option (List (String × PyVal) × List Char)
  | 0, _ => Option.none
  | Nat.succ fuel, cs =>
    match skipWsJ cs with
    | '"' :: rest =>
      match parseStrChars rest with
      | Option.none => Option.none
      | some (kcs, rem) =>
        match skipWsJ rem with
        | ':' :: r =>
          match parseJ fuel r with
          | Option.none => Option.none
          | some (v, rem2) =>
            match skipWsJ rem2 with
            | ',' :: r2 =>
              (parseObjItems fuel r2).map (fun p => ((String.mk kcs, v) :: p.1, p.2))
            | c3 :: r2 =>
              if c3 = objCloseChar then some ([(String.mk kcs, v)], r2) else Option.none
            | [] => Option.none
        | _ => Option.none
    | _ => Option.none

end

/-- Model of Python `json.loads` on a character list: parse one value with
ample fuel and require only whitespace after it. -/
def json_loads (cs : List Char) : Option PyVal :=
  match parseJ (2 * cs.length + 2) cs with
  | some (v, rem) => if skipWsJ rem = [] then some v else Option.none
  | Option.none => Option.none

/-! ### Python `str.strip` and the code-fence cleanup

`app.py` lines 131-133: `if json_str.startswith("```json"): json_str =
json_str.strip("```json\n").strip()`.  Note that Python's `str.strip(chars)`
treats its argument as a character SET and removes every leading and trailing
character drawn from it. -/

/-- Leading strip of every character contained in `set`. -/
def lstripChars (set : List Char) (cs : List Char) : List Char :=
  cs.dropWhile (fun c => set.contains c)

/-- Trailing strip of every character contained in `set`. -/
def rstripChars (set : List Char) (cs : List Char) : List Char :=
  (cs.reverse.dropWhile (fun c => set.contains c)).reverse

/-- Python `s.strip(chars)`: strip the character set from both ends. -/
def pyStripChars (set : List Char) (cs : List Char) : List Char :=
  rstripChars set (lstripChars set cs)

/-- The whitespace set stripped by no-argument `str.strip()` (ASCII part). -/
def wsChars : List Char := [' ', '\t', '\n', '\r', '\x0b', '\x0c']

/-- The literal `"```json"` that `startswith` tests for. -/
def fenceMarkerChars : List Char := ("```json").toList

/-- The character set of `strip("```json\n")`. -/
def fenceStripSet : List Char := ("```json\n").toList

/-- An opening fence line `"```json\n"`, used to state C6. -/
def fenceOpenChars : List Char := ("```json\n").toList

/-- A closing fence `"\n```"`, used to state C6. -/
def fenceCloseChars : List Char := ("\n```").toList

/-- Python `str.startswith` on the character-list model. -/
def startsWithChars : List Char → List Char → Bool
  | [], _ => true
  | _ :: _, [] => false
  | p :: ps, c :: cs => p == c && startsWithChars ps cs

/-- `app.py` lines 132-133: the markdown code-fence cleanup applied to the
extracted answer text. -/
def cleanJsonText (cs : List Char) : List Char :=
  if startsWithChars fenceMarkerChars cs then
    pyStripChars wsChars (pyStripChars fenceStripSet cs)
  else cs

/-- Outcome of the answer-processing step of `generate_presentation_content`:
either the parsed JSON value, or the Python pair `({'error': msg}, code)`
that the function returns on its failure paths. -/
inductive GenOut where
  | ok : PyVal → GenOut
  | errTuple : String → Nat → GenOut

/-- The Python value a `GenOut` stands for — error outcomes are the 2-tuple
`({'error': msg}, code)` that `return {'error': ...}, code` produces. -/
def genValue : GenOut → PyVal
  | GenOut.ok v => v
  | GenOut.errTuple msg code =>
    PyVal.tuple [PyVal.dict [(("error"), PyVal.str msg)], PyVal.int code]

/-- `app.py` lines 131-136 and 141-142: strip a `"```json"`-marked fence from
the extracted answer text and parse it; a `json.JSONDecodeError` becomes the
malformed-JSON error return. -/
def processAnswerText (cs : List Char) : GenOut :=
  match json_loads (cleanJsonText cs) with
  | some v => GenOut.ok v
  | Option.none => GenOut.errTuple ("LLM returned malformed JSON.") 500

/-- Outcome of the single outbound HTTP POST: a `requests` exception, or a
response with a status code, a status text (used in the exception message
that `raise_for_status` raises on a non-success status) and an optional JSON
body (`Option.none` models a body that `response.json()` cannot decode). -/
inductive HttpOutcome where
  | exn : String → HttpOutcome
  | resp : Nat → String → Option PyVal → HttpOutcome

/-- Python subscription `v[k]` for a string key, as used on the provider
response envelopes: succeeds only on a dict that has the key. -/
def asDictGet (v : PyVal) (k : String) : Option PyVal :=
  match v with
  | PyVal.dict kvs => dictGet kvs k
  | _ => Option.none

/-- Python subscription `v[0]`, as used on the response envelopes: succeeds
only on a non-empty list.  (Indexing a string would produce a one-character
string; every such path fails at the next subscription anyway, so the model
collapses it to failure.) -/
def asFirst (v : PyVal) : Option PyVal :=
  match v with
  | PyVal.list (x :: _) => some x
  | _ => Option.none

/-- Require a string value; the extracted answer must be a `str` for
`json_str.startswith` not to raise. -/
def asStr (v : PyVal) : Option String :=
  match v with
  | PyVal.str s => some s
  | _ => Option.none

/-- `app.py` lines 124-129: extract the model's textual answer from the
provider-specific response envelope (each provider nests it differently).
Any missing key, wrong shape or non-string leaf raises in Python and is
caught by the generic handler; the model returns `Option.none` there. -/
def extractAnswerText (provider : String) (content : PyVal) : Option String :=
  if provider = ("openai") then
    ((((asDictGet content ("choices")).bind asFirst).bind
      (fun m => asDictGet m ("message"))).bind
      (fun m => asDictGet m ("content"))).bind asStr
  else if provider = ("anthropic") then
    (((asDictGet content ("content")).bind asFirst).bind
      (fun m => asDictGet m ("text"))).bind asStr
  else
    ((((((asDictGet content ("candidates")).bind asFirst).bind
      (fun m => asDictGet m ("content"))).bind
      (fun m => asDictGet m ("parts"))).bind asFirst).bind
      (fun m => asDictGet m ("text"))).bind asStr

/-- `app.py` lines 47-51. -/
def openaiEndpoint : String := "https://api.openai.com/v1/chat/completions"

/-- `app.py` lines 47-51. -/
def anthropicEndpoint : String := "https://api.anthropic.com/v1/messages"

/-- `app.py` lines 47-51. -/
def geminiEndpoint : String :=
  "https://generativelanguage.googleapis.com/v1beta/models/gemini-1.5-flash:generateContent"

/-- The URL of the outbound POST for a supported provider (`app.py` lines
101 and 116-119; Gemini passes the API key as a query parameter). -/
def providerUrl (provider apiKey : String) : String :=
  if provider = ("gemini") then geminiEndpoint ++ ("?key=") ++ apiKey
  else if provider = ("openai") then openaiEndpoint
  else anthropicEndpoint

/-- `app.py` lines 42-145 (`generate_presentation_content`): dispatch on the
provider, make the single outbound call, extract and parse the answer.
Returns the Python value the function returns together with the URL of the
outbound POST, or `Option.none` in the second component when no request was
made.  The prompt text, headers and request payloads (lines 53-111) only
feed the outbound request and are elided; the error-message texts that
interpolate a Python exception are abbreviated to fixed strings. -/
def generate_presentation_content (inputText apiKey guidance provider : String)
    (http : HttpOutcome) : PyVal × Option String :=
  if provider = ("openai") ∨ provider = ("anthropic") ∨ provider = ("gemini") then
    let url := providerUrl provider apiKey
    match http with
    | HttpOutcome.exn msg =>
      (genValue (GenOut.errTuple (("LLM API call failed: ") ++ msg) 500), some url)
    | HttpOutcome.resp status statusText body =>
      if 400 ≤ status then
        (genValue (GenOut.errTuple (("LLM API call failed: ") ++ statusText) 500), some url)
      else
        match body with
        | Option.none =>
          (genValue (GenOut.errTuple ("An error occurred: invalid JSON body") 500), some url)
        | some content =>
          match extractAnswerText provider content with
          | Option.none =>
            (genValue (GenOut.errTuple ("An error occurred: unexpected response envelope") 500),
              some url)
          | some txt => (genValue (processAnswerText txt.toList), some url)
  else (genValue (GenOut.errTuple ("Unsupported LLM provider.") 400), Option.none)

/-- C4.  Any provider outside the three known values yields the
unsupported-provider error return, and no outbound HTTP request is made
(the URL component is `Option.none`). -/
theorem claim_C4 (inputText apiKey guidance provider : String) (http : HttpOutcome)
    (h1 : provider ≠ ("openai")) (h2 : provider ≠ ("anthropic"))
    (h3 : provider ≠ ("gemini")) :
    generate_presentation_content inputText apiKey guidance provider http =
      (PyVal.tuple [PyVal.dict [(("error"), PyVal.str ("Unsupported LLM provider."))],
        PyVal.int 400], Option.none) := by
  simp [generate_presentation_content, h1, h2, h3, genValue]

theorem dropWhile_append_all {p : Char → Bool} :
    ∀ (pre rest : List Char), (∀ c ∈ pre, p c = true) →
      (pre ++ rest).dropWhile p = rest.dropWhile p
  | [], _, _ => rfl
  | a :: pre, rest, h => by
    have ha : p a = true := h a (List.mem_cons_self a pre)
    simp only [List.cons_append, List.dropWhile_cons, ha, if_true]
    exact dropWhile_append_all pre rest (fun c hc => h c (List.mem_cons_of_mem a hc))

theorem dropWhile_cons_of_false {p : Char → Bool} (a : Char) (l : List Char)
    (h : p a = false) : (a :: l).dropWhile p = a :: l := by
  simp [List.dropWhile_cons, h]

/-- Python `strip(set)` of a document wrapped between a prefix and a suffix
drawn entirely from the stripped set recovers the document, provided the
document's first and last characters are outside the set. -/
theorem pyStripChars_wrap (set pre post doc : List Char)
    (hpre : ∀ c ∈ pre, set.contains c = true)
    (hpost : ∀ c ∈ post, set.contains c = true)
    (hne : doc ≠ [])
    (hh : ∀ a, doc.head? = some a → set.contains a = false)
    (hl : ∀ b, doc.getLast? = some b → set.contains b = false) :
    pyStripChars set (pre ++ doc ++ post) = doc := by
  obtain ⟨d, ds, rfl⟩ := List.exists_cons_of_ne_nil hne
  unfold pyStripChars lstripChars rstripChars
  rw [List.append_assoc, dropWhile_append_all _ _ hpre]
  have hd : set.contains d = false := hh d rfl
  rw [List.cons_append, dropWhile_cons_of_false _ _ hd,
    show d :: (ds ++ post) = (d :: ds) ++ post from rfl, List.reverse_append,
    dropWhile_append_all _ _ (fun c hc => hpost c (List.mem_reverse.mp hc))]
  cases hrev : (d :: ds).reverse with
  | nil => exact absurd hrev (by simp)
  | cons b bs =>
    have hb : (d :: ds).getLast? = some b := by
      rw [← List.head?_reverse, hrev]
      rfl
    rw [dropWhile_cons_of_false _ _ (hl b hb), ← hrev, List.reverse_reverse]

theorem startsWithChars_append (p rest : List Char) :
    startsWithChars p (p ++ rest) = true := by
  induction p with
  | nil => rfl
  | cons a ps ih => simp [startsWithChars, ih]

/-- Boundary condition under which the character-set strip of the fence
cleanup is lossless: the document's first and last characters lie outside
both the `"```json\n"` set and the whitespace set (true of every JSON object
or array, which begin and end with brackets). -/
def stripBoundaryOk (cs : List Char) : Bool :=
  match cs.head?, cs.getLast? with
  | some a, some b =>
    !(fenceStripSet.contains a) && !(wsChars.contains a) &&
      !(fenceStripSet.contains b) && !(wsChars.contains b)
  | _, _ => false

theorem cleanJsonText_wrap (doc : List Char) (hb : stripBoundaryOk doc = true) :
    cleanJsonText (fenceOpenChars ++ doc ++ fenceCloseChars) = doc := by
  have hne : doc ≠ [] := by
    intro h
    subst h
    simp [stripBoundaryOk] at hb
  obtain ⟨d, ds, rfl⟩ := List.exists_cons_of_ne_nil hne
  obtain ⟨b, hbl⟩ : ∃ b, (d :: ds).getLast? = some b := by
    cases h : (d :: ds).getLast? with
    | none => exact absurd h (by simp)
    | some b => exact ⟨b, rfl⟩
  have hhd : (d :: ds).head? = some d := rfl
  rw [stripBoundaryOk, hhd, hbl] at hb
  simp only [Bool.and_eq_true, Bool.not_eq_true'] at hb
  obtain ⟨⟨⟨ha1, ha2⟩, hb1⟩, hb2⟩ := hb
  have hsw : startsWithChars fenceMarkerChars
      (fenceOpenChars ++ (d :: ds) ++ fenceCloseChars) = true := by
    have h0 : fenceOpenChars = fenceMarkerChars ++ ['\n'] := by decide
    rw [h0, List.append_assoc, List.append_assoc, startsWithChars_append]
  unfold cleanJsonText
  rw [hsw]
  simp only [if_true]
  have hinner : pyStripChars fenceStripSet
      (fenceOpenChars ++ (d :: ds) ++ fenceCloseChars) = d :: ds := by
    refine pyStripChars_wrap _ _ _ _ (by decide) (by decide) hne ?_ ?_
    · intro a ha
      rw [hhd] at ha
      cases ha
      exact ha1
    · intro x hx
      rw [hbl] at hx
      cases hx
      exact hb1
  rw [hinner]
  have houter := pyStripChars_wrap wsChars [] [] (d :: ds) (by simp) (by simp) hne
    (fun a ha => by rw [hhd] at ha; cases ha; exact ha2)
    (fun x hx => by rw [hbl] at hx; cases hx; exact hb2)
  simpa using houter

/-- C6 (counterexample).  `"null"` is a valid JSON document, yet wrapping it
in a `"```json"` code fence makes `generate_presentation_content`'s cleanup
corrupt it: `str.strip("```json\n")` strips the character SET and eats the
leading `n` of `null`, so parsing fails with the malformed-JSON error
instead of returning the parse of the inner document. -/
theorem claim_C6_cx :
    json_loads (("null").toList) = some PyVal.none ∧
    processAnswerText (fenceOpenChars ++ (("null").toList) ++ fenceCloseChars) =
      GenOut.errTuple ("LLM returned malformed JSON.") 500 :=
  ⟨rfl, rfl⟩

/-- C6 (amended).  If the answer text starts with the `"```json"` marker and
the fenced JSON document neither starts nor ends with a character of the
strip set `\x7b backtick, j, s, o, n, newline\x7d` or whitespace — as is the
case for every object or array — the fence is stripped losslessly and the
parse of the inner document is returned; and any text that is not valid JSON
after the cleanup yields the malformed-response error. -/
theorem claim_C6_amended (doc : List Char) (v : PyVal)
    (hp : json_loads doc = some v) (hb : stripBoundaryOk doc = true) :
    processAnswerText (fenceOpenChars ++ doc ++ fenceCloseChars) = GenOut.ok v ∧
    ∀ txt : List Char, json_loads (cleanJsonText txt) = Option.none →
      processAnswerText txt = GenOut.errTuple ("LLM returned malformed JSON.") 500 := by
  constructor
  · unfold processAnswerText
    rw [cleanJsonText_wrap doc hb, hp]
  · intro txt h
    unfold processAnswerText
    rw [h]

/-- C6 witness: the amended statement at the concrete fenced document
`"[1]"`. -/
theorem claim_C6_witness :
    processAnswerText (fenceOpenChars ++ (("[1]").toList) ++ fenceCloseChars) =
      GenOut.ok (PyVal.list [PyVal.int 1]) ∧
    ∀ txt : List Char, json_loads (cleanJsonText txt) = Option.none →
      processAnswerText txt = GenOut.errTuple ("LLM returned malformed JSON.") 500 :=
  claim_C6_amended (("[1]").toList) (PyVal.list [PyVal.int 1]) (by rfl) (by rfl)

/-- C4 witness: the theorem at the concrete unknown provider `"cohere"`. -/
theorem claim_C4_witness :
    generate_presentation_content ("text") ("key") ("guidance") ("cohere")
        (HttpOutcome.exn ("unused")) =
      (PyVal.tuple [PyVal.dict [(("error"), PyVal.str ("Unsupported LLM provider."))],
        PyVal.int 400], Option.none) :=
  claim_C4 ("text") ("key") ("guidance") ("cohere") (HttpOutcome.exn ("unused"))
    (by decide) (by decide) (by decide)

/-! ### A model of the python-pptx objects used by `generate_pptx`

Only behaviour the repository exercises is modelled, per python-pptx's
documented semantics: a slide created from a layout clones the layout's
placeholders (each with one empty paragraph); `shapes.title` is the first
title-type placeholder; `placeholders[i]` indexes placeholders by their
`idx` attribute; setting `.text` replaces a text frame's content with a
single run (newline splitting into several paragraphs is elided — no claim
distinguishes it); `text_frame.clear()` keeps a single empty paragraph;
`add_paragraph` appends a paragraph.  A placeholder with `textOk = false`
models one whose text frame cannot be used (access raises, and
`has_text_frame` is false), which only the body-placeholder write guards
against.  `RGBColor` is python-pptx's `int` subclass holding
`(r << 16) | (g << 8) | b`, so `RGBColor(0, 0, 0)` is the integer 0. -/

/-- A text run with its (optionally overridden) font name and solid RGB
color. -/
structure Run where
  text : String
  fontName : Option String
  colorRgb : Option Nat
deriving DecidableEq

/-- A paragraph is a list of runs. -/
abbrev Para := List Run

/-- A text frame is a list of paragraphs. -/
abbrev Frame := List Para

/-- A layout placeholder: its `idx` attribute, whether it is a title-type
placeholder, and whether its text frame is usable (see the section header). -/
structure Placeholder where
  idx : Nat
  isTitle : Bool
  textOk : Bool
deriving DecidableEq

/-- A slide layout: its placeholder set. -/
structure Layout where
  placeholders : List Placeholder
deriving DecidableEq

/-- A placeholder shape on a slide: the cloned layout placeholder plus its
current text frame. -/
structure PhShape where
  ph : Placeholder
  frame : Frame
deriving DecidableEq

/-- A slide: the layout it was created from, its placeholder shapes, and the
manually added text boxes in order of addition. -/
structure Slide where
  fromLayout : Layout
  phs : List PhShape
  boxes : List Frame
deriving DecidableEq

/-- A normalized slide record as consumed by the populator: python-pptx
requires `str` values for `.text`, so the populator's inputs are strings. -/
structure SlideRec where
  title : String
  points : List String
deriving DecidableEq

/-- python-pptx `RGBColor(r, g, b)`: an `int` subclass with value
`(r << 16) | (g << 8) | b`. -/
def RGBColor (r g b : Nat) : Nat := r * 65536 + g * 256 + b

/-- `app.py` line 213. -/
def template_font : String := "Calibri"

/-- `app.py` line 215: `RGBColor(0, 0, 0)` (black). -/
def template_color : Nat := RGBColor 0 0 0

/-- Python truthiness of a string. -/
def pyTruthyStr (s : String) : Bool := !(s == "")

/-- Python truthiness of an `int` (hence of an `RGBColor`). -/
def pyTruthyInt (n : Nat) : Bool := !(n == 0)

/-- Setting `.text = t` on a shape's text frame: one paragraph, one run. -/
def mkTextFrame (t : String) : Frame := [[⟨t, Option.none, Option.none⟩]]

/-- `prs.slides.add_slide(layout)`: clone the layout's placeholders, each
with one empty paragraph; no text boxes yet. -/
def newSlideFrom (L : Layout) : Slide :=
  ⟨L, L.placeholders.map (fun p => ⟨p, [[]]⟩), []⟩

/-- Write the title text into the first title-type placeholder, if any
(`shapes.title`). -/
def writeFirstTitle : List PhShape → String → Option (List PhShape)
  | [], _ => Option.none
  | s :: ss, t =>
    if s.ph.isTitle then some ({ s with frame := mkTextFrame t } :: ss)
    else (writeFirstTitle ss t).map (fun r => s :: r)

/-- `app.py` lines 229-234 and 252-257: set the slide title via the title
placeholder when present, else add a positioned text box holding it. -/
def setSlideTitle (sl : Slide) (t : String) : Slide :=
  match writeFirstTitle sl.phs t with
  | some phs => { sl with phs := phs }
  | Option.none => { sl with boxes := sl.boxes ++ [mkTextFrame t] }

/-- Write a frame into `placeholders[1]`: fails (raises in Python) when no
placeholder has `idx = 1` or its text frame is unusable. -/
def writeIdx1 : List PhShape → Frame → Option (List PhShape)
  | [], _ => Option.none
  | s :: ss, f =>
    if s.ph.idx = 1 then
      if s.ph.textOk then some ({ s with frame := f } :: ss) else Option.none
    else (writeIdx1 ss f).map (fun r => s :: r)

/-- The body frame produced for a point list: `tf.clear()` keeps one empty
paragraph, then one appended paragraph per point (a fallback text box's
fresh frame likewise starts with one empty paragraph). -/
def bulletFrame (ps : List String) : Frame :=
  [[]] ++ ps.map (fun p => [⟨p, Option.none, Option.none⟩])

/-- `app.py` lines 260-276: write the points into the body placeholder, or
fall back to a manually positioned text box when the placeholder is missing
or raises; skipped entirely when the point list is empty (falsy). -/
def writeBullets (sl : Slide) (ps : List String) : Slide :=
  match ps with
  | [] => sl
  | _ :: _ =>
    match writeIdx1 sl.phs (bulletFrame ps) with
    | some phs => { sl with phs := phs }
    | Option.none => { sl with boxes := sl.boxes ++ [bulletFrame ps] }

/-- `app.py` lines 236-243: write the first point into `placeholders[1]` as
a subtitle when the point list is non-empty and the slide has more than one
placeholder, silently skipping on any failure. -/
def addSubtitle (sl : Slide) : List String → Slide
  | [] => sl
  | p0 :: _ =>
    if sl.phs.length > 1 then
      match writeIdx1 sl.phs (mkTextFrame p0) with
      | some phs => { sl with phs := phs }
      | Option.none => sl
    else sl

/-- `app.py` lines 222-243: the title slide — title via `setSlideTitle`,
then the subtitle via `addSubtitle`. -/
def mkTitleSlide (L : Layout) (r : SlideRec) : Slide :=
  addSubtitle (setSlideTitle (newSlideFrom L) r.title) r.points

/-- `app.py` lines 283-286: the per-run styling of the styling pass.  The
font name is applied because `"Calibri"` is truthy; the color assignment is
guarded by `if template_color:`, and `RGBColor(0, 0, 0)` is the integer 0. -/
def styleRun (r : Run) : Run :=
  { r with
    fontName := if pyTruthyStr template_font then some template_font else r.fontName,
    colorRgb := if pyTruthyInt template_color then some template_color else r.colorRgb }

/-- Style every run of a frame. -/
def styleFrame (f : Frame) : Frame := f.map (fun p => p.map styleRun)

/-- Style a placeholder shape, when it has a usable text frame. -/
def stylePh (s : PhShape) : PhShape :=
  if s.ph.textOk then { s with frame := styleFrame s.frame } else s

/-- `app.py` lines 278-286: style every run of every shape of the slide that
has a text frame. -/
def styleSlide (sl : Slide) : Slide :=
  { sl with phs := sl.phs.map stylePh, boxes := sl.boxes.map styleFrame }

/-- `app.py` lines 246-286: one content slide — created from the content
layout, titled, filled with bullet points, then styled. -/
def mkContentSlide (L : Layout) (r : SlideRec) : Slide :=
  styleSlide (writeBullets (setSlideTitle (newSlideFrom L) r.title) r.points)

/-- Python `list.remove`: drop the first occurrence. -/
def pyRemove {α : Type} [DecidableEq α] : List α → α → List α
  | [], _ => []
  | y :: ys, x => if y = x then ys else y :: pyRemove ys x

/-- `app.py` lines 218-220: `for i in range(len(prs.slides) - 1, -1, -1):
prs.slides._sldIdLst.remove(prs.slides._sldIdLst[i])`, iterating the index
downwards while the list shrinks. -/
def removeLoop {α : Type} [DecidableEq α] : Nat → List α → List α
  | 0, lst => lst
  | Nat.succ i, lst =>
    removeLoop i (match lst.get? i with
      | some x => pyRemove lst x
      | Option.none => lst)

/-- The whole removal loop, started at the initial length. -/
def removeAllSlides {α : Type} [DecidableEq α] (lst : List α) : List α :=
  removeLoop lst.length lst

/-- `app.py` lines 210 and 247: the content layout is `slide_layouts[1]`
when a second layout exists, else `None`, and `content_slide_layout or
prs.slide_layouts[0]` then falls back to the first layout. -/
def contentLayoutOf (L0 : Layout) (rest : List Layout) : Layout :=
  match rest with
  | [] => L0
  | L1 :: _ => L1

/-- `app.py` lines 208-286: the populator.  `Option.none` models an
uncaught exception (reaching the handler's generic 500): indexing
`prs.slide_layouts[0]` with an empty layout set while adding the title
slide, and indexing `slide_data[0]` with an empty deck.  The content layout
is `slide_layouts[1]` when a second layout exists, else the first layout
(`content_slide_layout or prs.slide_layouts[0]`). -/
def buildPresentation (existing : List Slide) (layouts : List Layout)
    (deck : List SlideRec) : Option (List Slide) :=
  let cleared := removeAllSlides existing
  match layouts with
  | [] => Option.none
  | L0 :: rest =>
    match deck with
    | [] => Option.none
    | d0 :: ds =>
      some (cleared ++ (mkTitleSlide L0 d0 ::
        ds.map (fun d => mkContentSlide (contentLayoutOf L0 rest) d)))

/-- Text of a paragraph: concatenation of its runs' texts. -/
def paraText : Para → String
  | [] => ""
  | [r] => r.text
  | r :: s :: rest => r.text ++ paraText (s :: rest)

/-- Join paragraph texts with newlines (the `.text` getter). -/
def joinedParas : List String → String
  | [] => ""
  | [x] => x
  | x :: y :: rest => x ++ ("\n") ++ joinedParas (y :: rest)

/-- Text of a whole frame. -/
def frameText (f : Frame) : String := joinedParas (f.map paraText)

/-- All text frames of a slide, in shape order (placeholders first, then
added text boxes). -/
def slideFrames (sl : Slide) : List Frame :=
  sl.phs.map (fun s => s.frame) ++ sl.boxes

/-- The slide's displayed title: the text of its title placeholder when one
exists, else the text of the first added text box (where the populator puts
the title in that case). -/
def slideTitleText (sl : Slide) : Option String :=
  match sl.phs.find? (fun s => s.ph.isTitle) with
  | some s => some (frameText s.frame)
  | Option.none => (sl.boxes.get? 0).map frameText

/-- The slide carries `ps` as its bullet paragraphs: some shape's frame
holds exactly `ps`, in order, after the leading cleared paragraph. -/
def carriesPoints (sl : Slide) (ps : List String) : Prop :=
  ∃ f ∈ slideFrames sl, (f.drop 1).map paraText = ps

/-- Every run on the slide. -/
def slideRuns (sl : Slide) : List Run :=
  ((slideFrames sl).map List.flatten).flatten

/-- Well-formedness of a layout per the OOXML presentation format: a
title-type placeholder carries placeholder index 0 (so it is never the
`idx = 1` body/subtitle placeholder). -/
def WfLayout (L : Layout) : Prop :=
  ∀ p ∈ L.placeholders, p.isTitle = true → p.idx = 0

instance instDecWfLayout (L : Layout) : Decidable (WfLayout L) :=
  List.decidableBAll _ L.placeholders

/-- Well-formedness carried over to the shapes of a slide. -/
def WfShapes (phs : List PhShape) : Prop :=
  ∀ s ∈ phs, s.ph.isTitle = true → s.ph.idx = 0

theorem pyRemove_length {α : Type} [DecidableEq α] (l : List α) (x : α) (hx : x ∈ l) :
    (pyRemove l x).length + 1 = l.length := by
  induction l with
  | nil => cases hx
  | cons y ys ih =>
    by_cases h : y = x
    · simp [pyRemove, h]
    · have hx' : x ∈ ys := by
        cases hx with
        | head => exact absurd rfl h
        | tail _ hm => exact hm
      have := ih hx'
      simp only [pyRemove, if_neg h, List.length_cons]
      omega

theorem removeLoop_nil {α : Type} [DecidableEq α] :
    ∀ (n : Nat) (l : List α), l.length = n → removeLoop n l = []
  | 0, l, h => by
    cases l with
    | nil => rfl
    | cons a as => simp at h
  | Nat.succ n, l, h => by
    have hn : n < l.length := by omega
    have hget : l.get? n = some (l.get ⟨n, hn⟩) := List.get?_eq_get hn
    have hmem : l.get ⟨n, hn⟩ ∈ l := List.get_mem l n hn
    have hlen := pyRemove_length l _ hmem
    simp only [removeLoop, hget]
    exact removeLoop_nil n _ (by omega)

/-- The reverse-index removal loop of `app.py` lines 218-220 empties any
slide list. -/
theorem removeAllSlides_nil {α : Type} [DecidableEq α] (l : List α) :
    removeAllSlides l = [] :=
  removeLoop_nil l.length l rfl

theorem find?_cons_pos {α : Type} (p : α → Bool) (a : α) (l : List α)
    (h : p a = true) : List.find? p (a :: l) = some a := by
  rw [List.find?_cons, h]

theorem find?_cons_neg {α : Type} (p : α → Bool) (a : α) (l : List α)
    (h : ¬ p a = true) : List.find? p (a :: l) = List.find? p l := by
  cases hpa : p a with
  | true => exact absurd hpa h
  | false => rw [List.find?_cons, hpa]

theorem writeFirstTitle_none {phs : List PhShape} {t : String} :
    writeFirstTitle phs t = Option.none → ∀ s ∈ phs, s.ph.isTitle = false := by
  induction phs with
  | nil => intro _ s hs; cases hs
  | cons a ss ih =>
    intro h s hs
    by_cases ha : a.ph.isTitle = true
    · rw [writeFirstTitle, if_pos ha] at h
      cases h
    · rw [writeFirstTitle, if_neg ha] at h
      cases hs with
      | head => simpa using ha
      | tail _ hm =>
        have hss : writeFirstTitle ss t = Option.none := by
          cases hw : writeFirstTitle ss t with
          | none => rfl
          | some r => rw [hw] at h; cases h
        exact ih hss s hm

theorem writeFirstTitle_some {phs : List PhShape} {t : String} {phs' : List PhShape} :
    writeFirstTitle phs t = some phs' →
    phs'.map (fun s => s.ph) = phs.map (fun s => s.ph) ∧
    ∃ p : Placeholder, p.isTitle = true ∧
      phs'.find? (fun s => s.ph.isTitle) = some ⟨p, mkTextFrame t⟩ := by
  induction phs generalizing phs' with
  | nil => intro h; cases h
  | cons a ss ih =>
    intro h
    by_cases ha : a.ph.isTitle = true
    · rw [writeFirstTitle, if_pos ha] at h
      cases h
      refine ⟨rfl, a.ph, ha, ?_⟩
      exact find?_cons_pos (fun s : PhShape => s.ph.isTitle) _ _ ha
    · rw [writeFirstTitle, if_neg ha] at h
      cases hw : writeFirstTitle ss t with
      | none => rw [hw] at h; cases h
      | some ss' =>
        rw [hw] at h
        cases h
        obtain ⟨hmap, p, hp, hfind⟩ := ih hw
        refine ⟨by simp [hmap], p, hp, ?_⟩
        show List.find? (fun s => s.ph.isTitle) (a :: ss') = some ⟨p, mkTextFrame t⟩
        rw [find?_cons_neg (fun s : PhShape => s.ph.isTitle) _ _ ha, hfind]

theorem writeIdx1_props {phs : List PhShape} {f : Frame} {phs' : List PhShape} :
    writeIdx1 phs f = some phs' →
    phs'.map (fun s => s.ph) = phs.map (fun s => s.ph) ∧
    (∃ s ∈ phs', s.frame = f ∧ s.ph.textOk = true) ∧
    (WfShapes phs →
      phs'.find? (fun s => s.ph.isTitle) = phs.find? (fun s => s.ph.isTitle)) := by
  induction phs generalizing phs' with
  | nil => intro h; cases h
  | cons a ss ih =>
    intro h
    by_cases ha : a.ph.idx = 1
    · rw [writeIdx1, if_pos ha] at h
      by_cases hok : a.ph.textOk = true
      · rw [if_pos hok] at h
        cases h
        refine ⟨rfl, ⟨{ a with frame := f }, List.mem_cons_self _ _, rfl, hok⟩, ?_⟩
        intro hwfs
        have hnt : ¬ a.ph.isTitle = true := by
          intro ht
          have := hwfs a (List.mem_cons_self _ _) ht
          omega
        rw [find?_cons_neg (fun s : PhShape => s.ph.isTitle) ⟨a.ph, f⟩ ss hnt,
          find?_cons_neg (fun s : PhShape => s.ph.isTitle) a ss hnt]
      · rw [if_neg hok] at h
        cases h
    · rw [writeIdx1, if_neg ha] at h
      cases hw : writeIdx1 ss f with
      | none => rw [hw] at h; cases h
      | some ss' =>
        rw [hw] at h
        cases h
        obtain ⟨hmap, ⟨s, hs, hsf, hsok⟩, hfind⟩ := ih hw
        refine ⟨by simp [hmap], ⟨s, List.mem_cons_of_mem _ hs, hsf, hsok⟩, ?_⟩
        intro hwfs
        show List.find? (fun s => s.ph.isTitle) (a :: ss') =
          List.find? (fun s => s.ph.isTitle) (a :: ss)
        by_cases hat : a.ph.isTitle = true
        · rw [find?_cons_pos (fun s : PhShape => s.ph.isTitle) _ _ hat,
            find?_cons_pos (fun s : PhShape => s.ph.isTitle) _ _ hat]
        · rw [find?_cons_neg (fun s : PhShape => s.ph.isTitle) _ _ hat,
            find?_cons_neg (fun s : PhShape => s.ph.isTitle) _ _ hat]
          exact hfind (fun s hs => hwfs s (List.mem_cons_of_mem _ hs))

theorem find?_title_none_of_phMap {phs phs' : List PhShape}
    (hmap : phs'.map (fun s => s.ph) = phs.map (fun s => s.ph))
    (h : phs.find? (fun s => s.ph.isTitle) = Option.none) :
    phs'.find? (fun s => s.ph.isTitle) = Option.none := by
  rw [List.find?_eq_none] at h ⊢
  intro s hs
  have hm : s.ph ∈ phs.map (fun s => s.ph) := by
    rw [← hmap]
    exact List.mem_map_of_mem _ hs
  obtain ⟨u, hu, hup⟩ := List.mem_map.mp hm
  intro ht
  exact h u hu (by rw [hup]; exact ht)

theorem wfShapes_of_phMap {phs qhs : List PhShape}
    (h : phs.map (fun s => s.ph) = qhs.map (fun s => s.ph)) (hq : WfShapes qhs) :
    WfShapes phs := by
  intro s hs ht
  have hm : s.ph ∈ qhs.map (fun s => s.ph) := by
    rw [← h]
    exact List.mem_map_of_mem _ hs
  obtain ⟨u, hu, hup⟩ := List.mem_map.mp hm
  have := hq u hu (by rw [hup]; exact ht)
  rw [← hup]
  exact this

theorem newSlideFrom_phMap (L : Layout) :
    (newSlideFrom L).phs.map (fun s => s.ph) = L.placeholders := by
  show (L.placeholders.map (fun p => (⟨p, [[]]⟩ : PhShape))).map (fun s => s.ph) =
    L.placeholders
  rw [List.map_map]
  have h : ((fun s : PhShape => s.ph) ∘ fun p => (⟨p, [[]]⟩ : PhShape)) = id := by
    funext p
    rfl
  rw [h, List.map_id]

theorem wfShapes_newSlide (L : Layout) (hwf : WfLayout L) :
    WfShapes (newSlideFrom L).phs := by
  intro s hs ht
  obtain ⟨p, hp, rfl⟩ := List.mem_map.mp hs
  exact hwf p hp ht

theorem find?_map_phPres (g : PhShape → PhShape) (hg : ∀ s, (g s).ph = s.ph)
    (phs : List PhShape) :
    (phs.map g).find? (fun s => s.ph.isTitle) =
      (phs.find? (fun s => s.ph.isTitle)).map g := by
  induction phs with
  | nil => rfl
  | cons a ss ih =>
    by_cases ha : a.ph.isTitle = true
    · rw [List.map_cons, find?_cons_pos (fun s : PhShape => s.ph.isTitle) _ _ (by simpa [hg] using ha),
        find?_cons_pos (fun s : PhShape => s.ph.isTitle) _ _ ha]
      rfl
    · rw [List.map_cons, find?_cons_neg (fun s : PhShape => s.ph.isTitle) _ _ (by simpa [hg] using ha),
        find?_cons_neg (fun s : PhShape => s.ph.isTitle) _ _ ha, ih]

theorem stylePh_ph (s : PhShape) : (stylePh s).ph = s.ph := by
  unfold stylePh
  split <;> rfl

theorem styleRun_text (r : Run) : (styleRun r).text = r.text := rfl

theorem paraText_styled (p : Para) : paraText (p.map styleRun) = paraText p := by
  induction p with
  | nil => rfl
  | cons r rest ih =>
    cases rest with
    | nil => rfl
    | cons s rest2 =>
      show (styleRun r).text ++ paraText (styleRun s :: List.map styleRun rest2) =
        r.text ++ paraText (s :: rest2)
      rw [show styleRun s :: List.map styleRun rest2 =
        List.map styleRun (s :: rest2) from rfl, ih]
      rfl

theorem frameText_styleFrame (f : Frame) : frameText (styleFrame f) = frameText f := by
  unfold frameText styleFrame
  rw [List.map_map]
  have h : (paraText ∘ fun p : Para => p.map styleRun) = paraText := by
    funext p
    exact paraText_styled p
  rw [h]

theorem frameText_mkTextFrame (t : String) : frameText (mkTextFrame t) = t := rfl

theorem drop_map_paraText_styleFrame (f : Frame) :
    ((styleFrame f).drop 1).map paraText = (f.drop 1).map paraText := by
  unfold styleFrame
  rw [← List.map_drop, List.map_map]
  have h : (paraText ∘ fun p : Para => p.map styleRun) = paraText := by
    funext p
    exact paraText_styled p
  rw [h]

theorem bulletFrame_drop (ps : List String) :
    ((bulletFrame ps).drop 1).map paraText = ps := by
  show (ps.map (fun p => [(⟨p, Option.none, Option.none⟩ : Run)])).map paraText = ps
  rw [List.map_map]
  have h : (paraText ∘ fun p => [(⟨p, Option.none, Option.none⟩ : Run)]) = id := by
    funext p
    rfl
  rw [h, List.map_id]

theorem stylePh_frame_drop (s : PhShape) :
    (((stylePh s).frame).drop 1).map paraText = (s.frame.drop 1).map paraText := by
  unfold stylePh
  split
  · exact drop_map_paraText_styleFrame s.frame
  · rfl

theorem frameText_stylePh (s : PhShape) :
    frameText (stylePh s).frame = frameText s.frame := by
  unfold stylePh
  split
  · exact frameText_styleFrame s.frame
  · rfl

theorem slideTitleText_styleSlide (sl : Slide) :
    slideTitleText (styleSlide sl) = slideTitleText sl := by
  unfold slideTitleText styleSlide
  simp only
  rw [find?_map_phPres stylePh stylePh_ph]
  cases h : sl.phs.find? (fun s => s.ph.isTitle) with
  | some s => simp [frameText_stylePh]
  | none =>
    simp only [Option.map_none']
    rw [List.get?_map]
    cases hb : sl.boxes.get? 0 with
    | none => rfl
    | some b => simp [frameText_styleFrame]

theorem addSubtitle_boxes (sl : Slide) (ps : List String) :
    (addSubtitle sl ps).boxes = sl.boxes := by
  cases ps with
  | nil => rfl
  | cons p0 q =>
    rw [addSubtitle]
    by_cases h : sl.phs.length > 1
    · rw [if_pos h]
      cases writeIdx1 sl.phs (mkTextFrame p0) <;> rfl
    · rw [if_neg h]

theorem addSubtitle_find (sl : Slide) (ps : List String) (hwfs : WfShapes sl.phs) :
    (addSubtitle sl ps).phs.find? (fun s => s.ph.isTitle) =
      sl.phs.find? (fun s => s.ph.isTitle) := by
  cases ps with
  | nil => rfl
  | cons p0 q =>
    rw [addSubtitle]
    by_cases h : sl.phs.length > 1
    · rw [if_pos h]
      cases hw : writeIdx1 sl.phs (mkTextFrame p0) with
      | none => rfl
      | some phs2 => exact (writeIdx1_props hw).2.2 hwfs
    · rw [if_neg h]

theorem writeBullets_phs_find (sl : Slide) (ps : List String) (hwfs : WfShapes sl.phs) :
    (writeBullets sl ps).phs.find? (fun s => s.ph.isTitle) =
      sl.phs.find? (fun s => s.ph.isTitle) := by
  cases ps with
  | nil => rfl
  | cons q qs =>
    rw [writeBullets]
    cases hw : writeIdx1 sl.phs (bulletFrame (q :: qs)) with
    | none => rfl
    | some phs2 => exact (writeIdx1_props hw).2.2 hwfs

theorem writeBullets_boxes_get0 (sl : Slide) (ps : List String) (b : Frame)
    (hb : sl.boxes.get? 0 = some b) :
    (writeBullets sl ps).boxes.get? 0 = some b := by
  cases ps with
  | nil => exact hb
  | cons q qs =>
    rw [writeBullets]
    cases hw : writeIdx1 sl.phs (bulletFrame (q :: qs)) with
    | some phs2 => exact hb
    | none =>
      show (sl.boxes ++ [bulletFrame (q :: qs)]).get? 0 = some b
      have hlen : 0 < sl.boxes.length := by
        cases hbx : sl.boxes with
        | nil => rw [hbx] at hb; cases hb
        | cons x xs => simp [hbx]
      rw [List.get?_append hlen]
      exact hb

theorem slideTitleText_mkTitleSlide (L : Layout) (r : SlideRec) (hwf : WfLayout L) :
    slideTitleText (mkTitleSlide L r) = some r.title := by
  unfold mkTitleSlide
  cases hw : writeFirstTitle (newSlideFrom L).phs r.title with
  | some phs1 =>
    obtain ⟨hmap1, p, hp, hfind1⟩ := writeFirstTitle_some hw
    have hst : setSlideTitle (newSlideFrom L) r.title =
        { newSlideFrom L with phs := phs1 } := by
      unfold setSlideTitle
      rw [hw]
    rw [hst]
    have hwfs1 : WfShapes phs1 := wfShapes_of_phMap hmap1 (wfShapes_newSlide L hwf)
    unfold slideTitleText
    rw [addSubtitle_find ({ newSlideFrom L with phs := phs1 }) r.points hwfs1]
    have hfind' : List.find? (fun s => s.ph.isTitle)
        ({ newSlideFrom L with phs := phs1 } : Slide).phs =
          some ⟨p, mkTextFrame r.title⟩ := hfind1
    rw [hfind']
    rfl
  | none =>
    have hnone : (newSlideFrom L).phs.find? (fun s => s.ph.isTitle) = Option.none := by
      rw [List.find?_eq_none]
      intro s hs
      rw [writeFirstTitle_none hw s hs]
      simp
    have hst : setSlideTitle (newSlideFrom L) r.title =
        { newSlideFrom L with boxes := (newSlideFrom L).boxes ++ [mkTextFrame r.title] } := by
      unfold setSlideTitle
      rw [hw]
    rw [hst]
    unfold slideTitleText
    rw [addSubtitle_find
      ({ newSlideFrom L with boxes := (newSlideFrom L).boxes ++ [mkTextFrame r.title] })
      r.points (wfShapes_newSlide L hwf)]
    have hnone' : List.find? (fun s => s.ph.isTitle)
        ({ newSlideFrom L with
          boxes := (newSlideFrom L).boxes ++ [mkTextFrame r.title] } : Slide).phs =
          Option.none := hnone
    rw [hnone']
    rw [addSubtitle_boxes]
    rfl

theorem slideTitleText_mkContentSlide (L : Layout) (r : SlideRec) (hwf : WfLayout L) :
    slideTitleText (mkContentSlide L r) = some r.title := by
  unfold mkContentSlide
  rw [slideTitleText_styleSlide]
  cases hw : writeFirstTitle (newSlideFrom L).phs r.title with
  | some phs1 =>
    obtain ⟨hmap1, p, hp, hfind1⟩ := writeFirstTitle_some hw
    have hst : setSlideTitle (newSlideFrom L) r.title =
        { newSlideFrom L with phs := phs1 } := by
      unfold setSlideTitle
      rw [hw]
    rw [hst]
    have hwfs1 : WfShapes phs1 := wfShapes_of_phMap hmap1 (wfShapes_newSlide L hwf)
    unfold slideTitleText
    rw [writeBullets_phs_find ({ newSlideFrom L with phs := phs1 }) r.points hwfs1]
    have hfind' : List.find? (fun s => s.ph.isTitle)
        ({ newSlideFrom L with phs := phs1 } : Slide).phs =
          some ⟨p, mkTextFrame r.title⟩ := hfind1
    rw [hfind']
    rfl
  | none =>
    have hnone : (newSlideFrom L).phs.find? (fun s => s.ph.isTitle) = Option.none := by
      rw [List.find?_eq_none]
      intro s hs
      rw [writeFirstTitle_none hw s hs]
      simp
    have hst : setSlideTitle (newSlideFrom L) r.title =
        { newSlideFrom L with boxes := (newSlideFrom L).boxes ++ [mkTextFrame r.title] } := by
      unfold setSlideTitle
      rw [hw]
    rw [hst]
    unfold slideTitleText
    rw [writeBullets_phs_find
      ({ newSlideFrom L with boxes := (newSlideFrom L).boxes ++ [mkTextFrame r.title] })
      r.points (wfShapes_newSlide L hwf)]
    have hnone' : List.find? (fun s => s.ph.isTitle)
        ({ newSlideFrom L with
          boxes := (newSlideFrom L).boxes ++ [mkTextFrame r.title] } : Slide).phs =
          Option.none := hnone
    rw [hnone']
    rw [writeBullets_boxes_get0
      ({ newSlideFrom L with boxes := (newSlideFrom L).boxes ++ [mkTextFrame r.title] })
      r.points (mkTextFrame r.title) rfl]
    rfl

theorem carriesPoints_mkContentSlide (L : Layout) (r : SlideRec) :
    carriesPoints (mkContentSlide L r) r.points := by
  unfold mkContentSlide carriesPoints
  cases hps : r.points with
  | nil =>
    rw [show writeBullets (setSlideTitle (newSlideFrom L) r.title) [] =
      setSlideTitle (newSlideFrom L) r.title from rfl]
    cases hw : writeFirstTitle (newSlideFrom L).phs r.title with
    | some phs1 =>
      obtain ⟨hmap1, p, hp, hfind1⟩ := writeFirstTitle_some hw
      have hst : setSlideTitle (newSlideFrom L) r.title =
          { newSlideFrom L with phs := phs1 } := by
        unfold setSlideTitle
        rw [hw]
      rw [hst]
      have hmem : (⟨p, mkTextFrame r.title⟩ : PhShape) ∈ phs1 :=
        List.mem_of_find?_eq_some hfind1
      refine ⟨(stylePh ⟨p, mkTextFrame r.title⟩).frame, ?_, ?_⟩
      · show (stylePh ⟨p, mkTextFrame r.title⟩).frame ∈
          (phs1.map stylePh).map (fun s => s.frame) ++
            ((newSlideFrom L).boxes.map styleFrame)
        exact List.mem_append_left _
          (List.mem_map_of_mem _ (List.mem_map_of_mem stylePh hmem))
      · rw [stylePh_frame_drop]
        rfl
    | none =>
      have hst : setSlideTitle (newSlideFrom L) r.title =
          { newSlideFrom L with
            boxes := (newSlideFrom L).boxes ++ [mkTextFrame r.title] } := by
        unfold setSlideTitle
        rw [hw]
      rw [hst]
      refine ⟨styleFrame (mkTextFrame r.title), ?_, ?_⟩
      · show styleFrame (mkTextFrame r.title) ∈
          ((newSlideFrom L).phs.map stylePh).map (fun s => s.frame) ++
            (((newSlideFrom L).boxes ++ [mkTextFrame r.title]).map styleFrame)
        exact List.mem_append_right _
          (List.mem_map_of_mem _ (List.mem_append_right _ (List.mem_singleton_self _)))
      · rfl
  | cons q qs =>
    cases hw2 : writeIdx1 (setSlideTitle (newSlideFrom L) r.title).phs
        (bulletFrame (q :: qs)) with
    | some phs2 =>
      have hwb : writeBullets (setSlideTitle (newSlideFrom L) r.title) (q :: qs) =
          { setSlideTitle (newSlideFrom L) r.title with phs := phs2 } := by
        rw [writeBullets, hw2]
      rw [hwb]
      obtain ⟨-, ⟨s, hs, hsf, hsok⟩, -⟩ := writeIdx1_props hw2
      refine ⟨(stylePh s).frame, ?_, ?_⟩
      · show (stylePh s).frame ∈
          (phs2.map stylePh).map (fun s => s.frame) ++
            ((setSlideTitle (newSlideFrom L) r.title).boxes.map styleFrame)
        exact List.mem_append_left _
          (List.mem_map_of_mem _ (List.mem_map_of_mem stylePh hs))
      · rw [stylePh_frame_drop, hsf, bulletFrame_drop]
    | none =>
      have hwb : writeBullets (setSlideTitle (newSlideFrom L) r.title) (q :: qs) =
          { setSlideTitle (newSlideFrom L) r.title with
            boxes := (setSlideTitle (newSlideFrom L) r.title).boxes ++
              [bulletFrame (q :: qs)] } := by
        rw [writeBullets, hw2]
      rw [hwb]
      refine ⟨styleFrame (bulletFrame (q :: qs)), ?_, ?_⟩
      · show styleFrame (bulletFrame (q :: qs)) ∈
          ((setSlideTitle (newSlideFrom L) r.title).phs.map stylePh).map
              (fun s => s.frame) ++
            (((setSlideTitle (newSlideFrom L) r.title).boxes ++
              [bulletFrame (q :: qs)]).map styleFrame)
        exact List.mem_append_right _
          (List.mem_map_of_mem _ (List.mem_append_right _ (List.mem_singleton_self _)))
      · rw [drop_map_paraText_styleFrame, bulletFrame_drop]

theorem setSlideTitle_fromLayout (sl : Slide) (t : String) :
    (setSlideTitle sl t).fromLayout = sl.fromLayout := by
  unfold setSlideTitle
  cases writeFirstTitle sl.phs t <;> rfl

theorem addSubtitle_fromLayout (sl : Slide) (ps : List String) :
    (addSubtitle sl ps).fromLayout = sl.fromLayout := by
  cases ps with
  | nil => rfl
  | cons p0 q =>
    rw [addSubtitle]
    by_cases h : sl.phs.length > 1
    · rw [if_pos h]
      cases writeIdx1 sl.phs (mkTextFrame p0) <;> rfl
    · rw [if_neg h]

theorem writeBullets_fromLayout (sl : Slide) (ps : List String) :
    (writeBullets sl ps).fromLayout = sl.fromLayout := by
  cases ps with
  | nil => rfl
  | cons q qs =>
    rw [writeBullets]
    cases writeIdx1 sl.phs (bulletFrame (q :: qs)) <;> rfl

theorem mkTitleSlide_fromLayout (L : Layout) (r : SlideRec) :
    (mkTitleSlide L r).fromLayout = L := by
  unfold mkTitleSlide
  rw [addSubtitle_fromLayout, setSlideTitle_fromLayout]
  rfl

theorem mkContentSlide_fromLayout (L : Layout) (r : SlideRec) :
    (mkContentSlide L r).fromLayout = L := by
  unfold mkContentSlide
  show (writeBullets (setSlideTitle (newSlideFrom L) r.title) r.points).fromLayout = L
  rw [writeBullets_fromLayout, setSlideTitle_fromLayout]
  rfl

theorem buildPresentation_cons (existing : List Slide) (L0 : Layout) (Ls : List Layout)
    (d0 : SlideRec) (ds : List SlideRec) :
    buildPresentation existing (L0 :: Ls) (d0 :: ds) =
      some (mkTitleSlide L0 d0 ::
        ds.map (fun d => mkContentSlide (contentLayoutOf L0 Ls) d)) := by
  unfold buildPresentation
  rw [removeAllSlides_nil]
  rfl

/-- The demonstration layout shared by the concrete populator runs: a title
placeholder (idx 0) and a body placeholder (idx 1), both usable. -/
def demoLayout : Layout := ⟨[⟨0, true, true⟩, ⟨1, false, true⟩]⟩

/-- C2.  For any template slides, any non-empty layout list (well-formed per
OOXML: title placeholders carry idx 0) and any non-empty deck, the populator
empties the template's slide list and produces exactly one slide per deck
record: slide 0 carries record 0's title, and slide `j+1` carries record
`j+1`'s title and its points as bullet paragraphs in order. -/
theorem claim_C2 (existing : List Slide) (L0 : Layout) (Ls : List Layout)
    (d0 : SlideRec) (ds : List SlideRec)
    (hwf : ∀ L ∈ L0 :: Ls, WfLayout L) :
    removeAllSlides existing = [] ∧
    ∃ slides, buildPresentation existing (L0 :: Ls) (d0 :: ds) = some slides ∧
      slides.length = (d0 :: ds).length ∧
      (∀ sl, slides.get? 0 = some sl → slideTitleText sl = some d0.title) ∧
      (∀ j d, ds.get? j = some d →
        ∃ sl, slides.get? (j + 1) = some sl ∧
          slideTitleText sl = some d.title ∧ carriesPoints sl d.points) := by
  have hwfL0 : WfLayout L0 := hwf L0 (List.mem_cons_self _ _)
  have hwfCL : WfLayout (contentLayoutOf L0 Ls) := by
    cases Ls with
    | nil => exact hwfL0
    | cons L1 rest => exact hwf L1 (List.mem_cons_of_mem _ (List.mem_cons_self _ _))
  refine ⟨removeAllSlides_nil existing, _,
    buildPresentation_cons existing L0 Ls d0 ds, ?_, ?_, ?_⟩
  · simp
  · intro sl h
    simp only [List.get?_cons_zero, Option.some.injEq] at h
    subst h
    exact slideTitleText_mkTitleSlide L0 d0 hwfL0
  · intro j d hj
    refine ⟨mkContentSlide (contentLayoutOf L0 Ls) d, ?_,
      slideTitleText_mkContentSlide (contentLayoutOf L0 Ls) d hwfCL,
      carriesPoints_mkContentSlide (contentLayoutOf L0 Ls) d⟩
    rw [List.get?_cons_succ, List.get?_map, hj]
    rfl

/-- C2 witness: the theorem at a concrete one-layout template and a
two-record deck. -/
theorem claim_C2_witness :
    removeAllSlides ([] : List Slide) = [] ∧
    ∃ slides, buildPresentation [] [demoLayout]
        [⟨("T"), []⟩, ⟨("C"), [("p")]⟩] = some slides ∧
      slides.length = ([⟨("T"), []⟩, ⟨("C"), [("p")]⟩] : List SlideRec).length ∧
      (∀ sl, slides.get? 0 = some sl →
        slideTitleText sl = some (SlideRec.mk ("T") []).title) ∧
      (∀ j d, ([⟨("C"), [("p")]⟩] : List SlideRec).get? j = some d →
        ∃ sl, slides.get? (j + 1) = some sl ∧
          slideTitleText sl = some d.title ∧ carriesPoints sl d.points) :=
  claim_C2 [] demoLayout [] ⟨("T"), []⟩ [⟨("C"), [("p")]⟩] (by decide)

/-- C7 (counterexample).  The claim asserts that layout resolution never
fails, including for a template whose layout set is empty; in fact, with an
empty layout set the populator raises (`prs.slide_layouts[0]` on line 226 —
modelled as `Option.none`) while adding the title slide. -/
theorem claim_C7_cx :
    buildPresentation ([] : List Slide) ([] : List Layout) [⟨("T"), []⟩] =
      Option.none := rfl

/-- C7 (amended).  When the template has at least one layout, layout
resolution never fails: the title slide uses the first layout, and every
content slide uses the second layout when it exists, falling back to the
first layout otherwise; with an empty layout set the populator raises while
adding the title slide. -/
theorem claim_C7_amended (existing : List Slide) (L0 : Layout) (Ls : List Layout)
    (d0 : SlideRec) (ds : List SlideRec) :
    (∃ slides, buildPresentation existing (L0 :: Ls) (d0 :: ds) = some slides ∧
      (∀ sl, slides.get? 0 = some sl → sl.fromLayout = L0) ∧
      (∀ j sl, slides.get? (j + 1) = some sl →
        sl.fromLayout = ((L0 :: Ls).get? 1).getD L0)) ∧
    buildPresentation existing ([] : List Layout) (d0 :: ds) = Option.none := by
  constructor
  · refine ⟨_, buildPresentation_cons existing L0 Ls d0 ds, ?_, ?_⟩
    · intro sl h
      simp only [List.get?_cons_zero, Option.some.injEq] at h
      subst h
      exact mkTitleSlide_fromLayout L0 d0
    · intro j sl h
      rw [List.get?_cons_succ, List.get?_map] at h
      cases hj : ds.get? j with
      | none => rw [hj] at h; cases h
      | some d =>
        rw [hj] at h
        simp only [Option.map_some', Option.some.injEq] at h
        subst h
        rw [mkContentSlide_fromLayout]
        cases Ls <;> rfl
  · rfl

/-- C7 witness: the amended statement at a concrete single-layout template,
exhibiting the fallback of the content layout to the first layout. -/
theorem claim_C7_witness :
    (∃ slides, buildPresentation ([] : List Slide) [demoLayout]
        [⟨("T"), []⟩, ⟨("C"), [("p")]⟩] = some slides ∧
      (∀ sl, slides.get? 0 = some sl → sl.fromLayout = demoLayout) ∧
      (∀ j sl, slides.get? (j + 1) = some sl →
        sl.fromLayout = (([demoLayout] : List Layout).get? 1).getD demoLayout)) ∧
    buildPresentation ([] : List Slide) ([] : List Layout)
      [⟨("T"), []⟩, ⟨("C"), [("p")]⟩] = Option.none :=
  claim_C7_amended [] demoLayout [] ⟨("T"), []⟩ [⟨("C"), [("p")]⟩]

/-- The title slide the populator produces for the C8 run: texts written,
no styling applied (the styling pass covers content slides only). -/
def c8TitleSlide : Slide :=
  ⟨demoLayout,
    [⟨⟨0, true, true⟩, [[⟨("Intro"), Option.none, Option.none⟩]]⟩,
     ⟨⟨1, false, true⟩, [[⟨("sub"), Option.none, Option.none⟩]]⟩], []⟩

/-- The content slide the populator produces for the C8 run: every run got
the fallback font, but no run got any color. -/
def c8ContentSlide : Slide :=
  ⟨demoLayout,
    [⟨⟨0, true, true⟩, [[⟨("Body"), some ("Calibri"), Option.none⟩]]⟩,
     ⟨⟨1, false, true⟩,
      [[], [⟨("p1"), some ("Calibri"), Option.none⟩],
       [⟨("p2"), some ("Calibri"), Option.none⟩]]⟩], []⟩

/-- C8 (code bug).  On a two-slide deck against the demonstration template,
every run of the content slide receives the fallback font `"Calibri"` but NO
color at all (`colorRgb = Option.none`, i.e. `run.font.color.rgb` is never
assigned): the guard `if template_color:` is false because `RGBColor(0,0,0)`
is an `int` subclass equal to 0.  The claim (and the code's own comments)
say solid black RGB(0,0,0) is forced.  The title slide's runs are indeed not
restyled. -/
theorem claim_C8_bug :
    buildPresentation [] [demoLayout]
        [⟨("Intro"), [("sub")]⟩, ⟨("Body"), [("p1"), ("p2")]⟩] =
      some [c8TitleSlide, c8ContentSlide] ∧
    RGBColor 0 0 0 = 0 ∧ pyTruthyInt (RGBColor 0 0 0) = false ∧
    slideRuns c8ContentSlide ≠ [] ∧
    (∀ r ∈ slideRuns c8ContentSlide,
      r.fontName = some ("Calibri") ∧ r.colorRgb = Option.none) ∧
    (∀ r ∈ slideRuns c8TitleSlide,
      r.fontName = Option.none ∧ r.colorRgb = Option.none) := by
  refine ⟨by decide, rfl, rfl, by decide, by decide, by decide⟩

/-! ### The `POST /generate` handler (`app.py` lines 173-297)

The handler is modelled as a function of the multipart form, the HTTP
outcome of the (at most one) outbound LLM call, and the outcome of loading
the saved template with `Presentation(...)`.  Filesystem writes (saving the
upload, writing the generated file) are elided; the response is either a
JSON body with a status code or the generated file. -/

/-- Python `needle in hay` for strings: substring test. -/
def containsSeq : List Char → List Char → Bool
  | needle, [] => needle.isEmpty
  | needle, c :: rest => startsWithChars needle (c :: rest) || containsSeq needle rest

/-- Python `'error' in slide_data` (`app.py` line 195), by the type of
`slide_data`: key membership for a dict, element equality for a list or
tuple (a string equals only an equal string), substring test for a string;
`in` on an int, bool or `None` raises `TypeError` (`Option.none`, caught by
the handler's generic `except`). -/
def pyContains (needle : String) (v : PyVal) : Option Bool :=
  match v with
  | PyVal.dict kvs => some (kvs.any (fun kv => kv.1 == needle))
  | PyVal.list xs =>
    some (xs.any (fun x => match x with | PyVal.str s => s == needle | _ => false))
  | PyVal.tuple xs =>
    some (xs.any (fun x => match x with | PyVal.str s => s == needle | _ => false))
  | PyVal.str s => some (containsSeq needle.toList s.toList)
  | _ => Option.none

/-- The multipart form of a `POST /generate` request: the three text fields
and the provider selector (`Option.none` when absent), and the uploaded
file's filename (`Option.none` when no `template` part is present; a
`FileStorage` is falsy exactly when its filename is empty). -/
structure FormData where
  api_key : Option String
  text_content : Option String
  guidance : Option String
  llm_provider : Option String
  templateFile : Option String

/-- Outcome of `Presentation(template_path)`: the template's layouts and
existing slides, or the load exception's message. -/
inductive TmplLoad where
  | ok : List Layout → List Slide → TmplLoad
  | err : String → TmplLoad

/-- The handler's response: `jsonify(body), status`, or the generated
presentation sent as a file download (HTTP 200). -/
inductive HandlerResponse where
  | jsonResp : PyVal → Nat → HandlerResponse
  | fileResp : List Slide → HandlerResponse

/-- `jsonify({'error': msg})`. -/
def errBody (msg : String) : PyVal := PyVal.dict [(("error"), PyVal.str msg)]

/-- `slide_data.get('code', 500)` (`app.py` line 196), coerced to a status
code; a non-integer value there would make Flask fail (modelled as 500). -/
def getCode (kvs : List (String × PyVal)) : Nat :=
  match dictGet kvs ("code") with
  | some (PyVal.int n) => n.toNat
  | _ => 500

/-- Message of the generic `except Exception` responder (line 297); the
interpolated exception text is abbreviated. -/
def unexpectedMsg : String := "An unexpected error occurred."

/-- A normalized slide entry as a populator record: python-pptx's `.text`
setters require `str` values, so a non-string title or point raises (the
handler's generic 500) — modelled by `Option.none`. -/
def recOfVal (v : PyVal) : Option SlideRec :=
  match v with
  | PyVal.dict (("title", PyVal.str t) :: ("points", PyVal.list ps) :: []) =>
    (ps.mapM (fun p => match p with | PyVal.str s => some s | _ => Option.none)).map
      (fun ss => SlideRec.mk t ss)
  | _ => Option.none

/-- The normalized deck as populator records (see `recOfVal`). -/
def toDeck (v : PyVal) : Option (List SlideRec) :=
  match v with
  | PyVal.list xs => xs.mapM recOfVal
  | _ => Option.none

/-- `app.py` lines 173-297 (`generate_pptx`): the full request handler.
Note `if 'error' in slide_data:` (line 195): when
`generate_presentation_content` fails it returns the TUPLE
`({'error': ...}, code)`, and `'error' in (dict, int)` tests the tuple's
ELEMENTS for equality with `'error'` — which is false — so the error goes
undetected and flows into the normalizer. -/
def generate_pptx (form : FormData) (http : HttpOutcome) (tmpl : TmplLoad) :
    HandlerResponse :=
  match form.templateFile with
  | Option.none => HandlerResponse.jsonResp (errBody ("No template file provided.")) 400
  | some fname =>
    if pyTruthyStr (form.api_key.getD "") && pyTruthyStr (form.text_content.getD "") &&
        pyTruthyStr fname then
      let guidance := form.guidance.getD ("general purpose presentation")
      let provider := form.llm_provider.getD ("openai")
      let slide_data := (generate_presentation_content (form.text_content.getD "")
        (form.api_key.getD "") guidance provider http).1
      match pyContains ("error") slide_data with
      | Option.none => HandlerResponse.jsonResp (errBody unexpectedMsg) 500
      | some true =>
        match slide_data with
        | PyVal.dict kvs => HandlerResponse.jsonResp (PyVal.dict kvs) (getCode kvs)
        | _ => HandlerResponse.jsonResp (errBody unexpectedMsg) 500
      | some false =>
        let normalized := normalize_slide_data slide_data
        match tmpl with
        | TmplLoad.err msg =>
          HandlerResponse.jsonResp
            (errBody (("Failed to load PowerPoint template: ") ++ msg)) 500
        | TmplLoad.ok layouts existing =>
          match toDeck normalized with
          | Option.none => HandlerResponse.jsonResp (errBody unexpectedMsg) 500
          | some deck =>
            match buildPresentation existing layouts deck with
            | Option.none => HandlerResponse.jsonResp (errBody unexpectedMsg) 500
            | some slides => HandlerResponse.fileResp slides
    else HandlerResponse.jsonResp (errBody ("Missing required fields.")) 400

/-- The Python value `({'error': 'Unsupported LLM provider.'}, 400)` that
`generate_presentation_content` returns for an unknown provider. -/
def c3ErrVal : PyVal :=
  PyVal.tuple [PyVal.dict [(("error"), PyVal.str ("Unsupported LLM provider."))],
    PyVal.int 400]

/-- C3 (code bug).  A request with all fields present, a loadable template
and the unsupported provider `"zzz"` makes the content-generation step fail,
yet the handler responds with a presentation FILE (HTTP 200) — a single
slide titled with the stringified error tuple — because `'error' in
slide_data` is false on the returned tuple.  The claim requires a JSON
`\x7berror: string\x7d` body with status 400/500 and no file. -/
theorem claim_C3_bug :
    generate_pptx
        ⟨some ("k"), some ("hello"), Option.none, some ("zzz"), some ("t.pptx")⟩
        (HttpOutcome.exn ("unused")) (TmplLoad.ok [demoLayout] []) =
      HandlerResponse.fileResp
        [⟨demoLayout,
          [⟨⟨0, true, true⟩, [[⟨pyStr c3ErrVal, Option.none, Option.none⟩]]⟩,
           ⟨⟨1, false, true⟩, [[]]⟩], []⟩] ∧
    pyContains ("error") c3ErrVal = some false :=
  ⟨rfl, rfl⟩

end PptGen
